import Mathlib

/-!
Verification of the androidsink pipeline core (src/lib.rs).

The embedding models, from the source:
  * the capability descriptor (caps) fixed on the appsink (lines 52-60);
  * the `new_sample` callback installed on the appsink (lines 68-124),
    including byte reinterpretation as signed 16-bit little-endian samples
    and the RMS loudness reduction (lines 113-121);
  * `create_pipeline` (lines 28-130), with the host element factory and the
    fallible add/link steps as oracles;
  * `main_loop` (lines 132-167): the state transition to Playing, the bus
    message loop, and the teardown transitions to Null.

Floating-point arithmetic is modelled by exact rationals (sums, divisions)
and exact reals (the square root): rounding is not modelled, but the
IEEE-754 "0.0 / 0.0 is NaN" case is, by an `Option` layer where `none`
stands for a non-finite (NaN) result.
-/

namespace AndroidSink

/-! ## Capability descriptor (create_pipeline, lines 52-60) -/

/-- Sample encodings used by the pipeline; the source only mentions
`gst_audio::AUDIO_FORMAT_S16`. -/
inductive AudioFormat where
  | s16
deriving DecidableEq

/-- Channel layouts; the source only mentions "interleaved". -/
inductive AudioLayout where
  | interleaved
deriving DecidableEq

/-- The caps structure built by `gst::Caps::new_simple("audio/x-raw", ...)`:
format, layout, channel count and the sample-rate range. -/
structure Caps where
  format : AudioFormat
  layout : AudioLayout
  channels : Int
  rateMin : Int
  rateMax : Int
deriving DecidableEq

/-- The caps fixed on the appsink: S16, interleaved, 1 channel,
rate in `IntRange::new(1, i32::MAX)` where `i32::MAX = 2^31 - 1`. -/
def sinkCaps : Caps :=
  { format := .s16
  , layout := .interleaved
  , channels := 1
  , rateMin := 1
  , rateMax := 2 ^ 31 - 1 }

/-! ## Pipeline state machine and main_loop (lines 132-167) -/

/-- GStreamer lifecycle states relevant to this core. -/
inductive GstState where
  | null
  | ready
  | paused
  | playing
deriving DecidableEq

/-- Bus messages as `main_loop` distinguishes them (`msg.view()`):
end-of-stream, an error message carrying the source object's path string
(absent when `get_src()` is `None`), the error text and the debug string,
or any other message kind. -/
inductive Message where
  | eos
  | error (src : Option String) (err : String) (debug : Option String)
  | other
deriving DecidableEq

/-- Failures observable from `create_pipeline` and `main_loop`
(all carried as `anyhow::Error` in the source). -/
inductive RunError where
  | missingElement (name : String)
  | addFailed
  | linkFailed
  | stateChange
  | errorMessage (src : String) (err : String) (debug : Option String)
deriving DecidableEq

/-- The `Result<(), Error>` returned by `main_loop` (and by
`create_pipeline().and_then(main_loop)`). -/
inductive RunResult where
  | ok
  | err (e : RunError)
deriving DecidableEq

/-- The pipeline object: its current lifecycle state, the caps fixed on the
appsink during construction, and the trace of `set_state` requests issued on
it (used to state that no transition was requested). -/
structure Pipeline where
  state : GstState
  caps : Option Caps
  requests : List GstState
deriving DecidableEq

/-- The environment behaviour of the underlying GStreamer graph: whether a
requested transition to a given target state succeeds. -/
structure Env where
  setStateOk : GstState → Bool

/-- Model of `pipeline.set_state(s)`: the request is recorded; on success the
pipeline reaches `s` and `true` is returned, on failure (`StateChangeError`)
`false` is returned (the source then propagates the failure with `?`).
On failure GStreamer leaves the state unspecified; the model keeps the old
state, and no claim reads the state after a failed transition. -/
def set_state (env : Env) (p : Pipeline) (s : GstState) : Pipeline × Bool :=
  let ok := env.setStateOk s
  ({ p with
      requests := p.requests ++ [s]
    , state := if ok then s else p.state }, ok)

/-- Outcome of `main_loop`: its returned `Result` and the pipeline object as
it is left behind. -/
structure LoopOutcome where
  result : RunResult
  pipeline : Pipeline
deriving DecidableEq

/-- Code after the message loop (lines 164-166): `pipeline.set_state(Null)?`
then `Ok(())`; a teardown failure is returned as the overall failure. -/
def after_loop (env : Env) (p : Pipeline) : LoopOutcome :=
  match set_state env p .null with
  | (p1, true) => ⟨.ok, p1⟩
  | (p1, false) => ⟨.err .stateChange, p1⟩

/-- The `for msg in bus.iter_timed(...)` loop (lines 141-161), run on the
finite sequence of messages the bus delivers. `Eos` breaks out of the loop
(then `after_loop` runs); `Error` first requests `set_state(Null)` with `?`
- so a failed teardown returns `StateChangeError` and the message's data is
dropped - and otherwise returns the structured `ErrorMessage` built from the
message; every other message is ignored. -/
def bus_loop (env : Env) (p : Pipeline) : List Message → LoopOutcome
  | [] => after_loop env p
  | .eos :: _ => after_loop env p
  | .error src e d :: _ =>
    match set_state env p .null with
    | (p1, true) => ⟨.err (.errorMessage (src.getD "None") e d), p1⟩
    | (p1, false) => ⟨.err .stateChange, p1⟩
  | .other :: rest => bus_loop env p rest

/-- `main_loop` (lines 132-167): transition to `Playing` (propagating a
failure), then consume bus messages. -/
def main_loop (env : Env) (p : Pipeline) (msgs : List Message) : LoopOutcome :=
  match set_state env p .playing with
  | (p1, true) => bus_loop env p1 msgs
  | (p1, false) => ⟨.err .stateChange, p1⟩

/-! ## The new_sample callback (lines 68-124) -/

/-- A data buffer: whether `buffer.map_readable()` succeeds, and the mapped
bytes when it does. -/
structure GstBuffer where
  mapOk : Bool
  bytes : List Nat
deriving DecidableEq

/-- A sample pulled from the appsink; `get_buffer()` may return nothing. -/
structure GstSample where
  buffer : Option GstBuffer
deriving DecidableEq

/-- The flow outcome the callback reports: `Ok(FlowSuccess::Ok)`,
`Err(FlowError::Eos)` or `Err(FlowError::Error)`. -/
inductive FlowRet where
  | ok
  | eos
  | err
deriving DecidableEq

/-- What one callback invocation produces: the flow outcome, whether a
`gst_element_error!(ResourceError::Failed, ...)` was posted on the stage,
and the decoded sample sequence on success. -/
structure CallbackOut where
  ret : FlowRet
  postedResourceError : Bool
  decoded : Option (List Int)
deriving DecidableEq

/-- Reinterpretation of one little-endian byte pair as a signed 16-bit
value: `lo + 256 * hi`, two's complement. -/
def toI16 (lo hi : Nat) : Int :=
  let v : Nat := lo % 256 + 256 * (hi % 256)
  if v < 32768 then (v : Int) else (v : Int) - 65536

/-- `map.as_slice_of::<i16>()` (line 101): fails when the byte length is not
a multiple of the element width, otherwise decodes consecutive little-endian
pairs. -/
def as_slice_of_i16 : List Nat → Option (List Int)
  | [] => some []
  | [_] => none
  | lo :: hi :: rest => (as_slice_of_i16 rest).map (fun t => toI16 lo hi :: t)

/-- The `new_sample` callback (lines 68-124). `pulled` is the outcome of
`appsink.pull_sample()` (`none` when it failed). Pull failure returns
`FlowError::Eos`; a sample without buffer, a failed readable mapping, or a
failed reinterpretation each post a resource error on the stage and return
`FlowError::Error`; on success the decoded samples feed the RMS computation
and `FlowSuccess::Ok` is returned. -/
def new_sample (pulled : Option GstSample) : CallbackOut :=
  match pulled with
  | none => ⟨.eos, false, none⟩
  | some s =>
    match s.buffer with
    | none => ⟨.err, true, none⟩
    | some b =>
      if b.mapOk = false then ⟨.err, true, none⟩
      else
        match as_slice_of_i16 b.bytes with
        | none => ⟨.err, true, none⟩
        | some samples => ⟨.ok, false, some samples⟩

/-! ## The loudness reducer (lines 113-121)

The source computes, over `f64`:
`sum = Σ (f64::from(sample) / f64::from(i16::MAX))^2`,
`rms = (sum / (samples.len() as f64)).sqrt()`, then prints it.
Finite intermediate values are modelled exactly (rationals for the sum and
the division, reals for the square root); the IEEE-754 non-finite case
`0.0 / 0.0 = NaN` is modelled by `none`. -/

/-- The per-sample term: `(f64::from(*sample) / f64::from(i16::MAX))` squared,
with `i16::MAX = 32767`. -/
def normSq (s : Int) : ℚ :=
  ((s : ℚ) / 32767) * ((s : ℚ) / 32767)

/-- The summed squares of the normalized samples (lines 113-119). -/
def sumSquares (samples : List Int) : ℚ :=
  (samples.map normSq).sum

/-- IEEE-754 division restricted to the shapes this program produces: a
finite quotient is exact; a zero divisor yields a non-finite result
(`none`), which for the program's only zero-divisor case `0.0 / 0.0`
is NaN. -/
def fdiv (a b : ℚ) : Option ℚ :=
  if b = 0 then none else some (a / b)

/-- `sum / (samples.len() as f64)` (line 120). -/
def meanSquare (samples : List Int) : Option ℚ :=
  fdiv (sumSquares samples) ((samples.length : ℚ))

/-- The RMS value printed at line 121: square root of the mean square;
`none` propagates a NaN (the square root of NaN is NaN). -/
noncomputable def rms (samples : List Int) : Option ℝ :=
  (meanSquare samples).map (fun q : ℚ => Real.sqrt ((q : ℝ)))

/-- Modelled from the spec (section 4.3) for comparison with `rms`: "the"
RMS formula `sqrt((Σ (s/32767)^2) / len)` stated directly over the reals. -/
noncomputable def rmsSpec (samples : List Int) : ℝ :=
  Real.sqrt (((samples.map (fun s : Int => ((s : ℝ) / 32767) ^ 2)).sum)
    / ((samples.length : ℝ)))

/-! ## create_pipeline (lines 28-130) -/

/-- The host's element factory registry: whether
`gst::ElementFactory::make(name, None)` succeeds for a given name. -/
structure Factory where
  make : String → Bool

/-- `create_pipeline` (lines 28-130): makes "audiotestsrc" (failure mapped to
`MissingElement("audiotestsrc")`), then "appsink" (failure mapped to
`MissingElement("appsink")`), adds both to the pipeline and links them (each
fallible, propagated with `?`), then fixes `sinkCaps` on the appsink and
installs the callback. No `set_state` call occurs anywhere in this function,
so the returned pipeline carries an empty request trace. -/
def create_pipeline (f : Factory) (addOk linkOk : Bool) :
    Except RunError Pipeline :=
  if f.make "audiotestsrc" = false then .error (.missingElement "audiotestsrc")
  else if f.make "appsink" = false then .error (.missingElement "appsink")
  else if addOk = false then .error .addFailed
  else if linkOk = false then .error .linkFailed
  else .ok { state := .null, caps := some sinkCaps, requests := [] }

/-- `run` (lines 169-174) up to its logging wrapper:
`create_pipeline().and_then(main_loop)`. Returns the result together with
the trace of `set_state` requests performed on the graph; when
`create_pipeline` fails, `main_loop` never runs and the dropped pipeline
received no `set_state` request (see `create_pipeline`), so the trace is
empty. -/
def run (f : Factory) (addOk linkOk : Bool) (env : Env) (msgs : List Message) :
    RunResult × List GstState :=
  match create_pipeline f addOk linkOk with
  | .error e => (.err e, [])
  | .ok p =>
    let out := main_loop env p msgs
    (out.result, out.pipeline.requests)

/-! ## Helper lemmas about the loudness reducer -/

theorem sumSquares_cons (a : Int) (xs : List Int) :
    sumSquares (a :: xs) = normSq a + sumSquares xs := by
  simp [sumSquares]

theorem normSq_nonneg (s : Int) : 0 ≤ normSq s :=
  mul_self_nonneg _

theorem sumSquares_nonneg (xs : List Int) : 0 ≤ sumSquares xs := by
  induction xs with
  | nil => simp [sumSquares]
  | cons a t ih =>
    rw [sumSquares_cons]
    exact add_nonneg (normSq_nonneg a) ih

theorem normSq_cast (s : Int) :
    ((normSq s : ℚ) : ℝ) = ((s : ℝ) / 32767) ^ 2 := by
  unfold normSq
  push_cast
  ring

theorem sumSquares_cast (xs : List Int) :
    ((sumSquares xs : ℚ) : ℝ)
      = (xs.map (fun s : Int => ((s : ℝ) / 32767) ^ 2)).sum := by
  induction xs with
  | nil => simp [sumSquares]
  | cons a t ih =>
    rw [sumSquares_cons, List.map_cons, List.sum_cons, Rat.cast_add,
      normSq_cast, ih]

theorem normSq_neg (s : Int) : normSq (-s) = normSq s := by
  unfold normSq
  push_cast
  ring

theorem sumSquares_map_neg (xs : List Int) :
    sumSquares (xs.map (fun s => -s)) = sumSquares xs := by
  induction xs with
  | nil => rfl
  | cons a t ih =>
    simp only [List.map_cons, sumSquares_cons, normSq_neg, ih]

theorem normSq_le (s : Int) (h1 : -32768 ≤ s) (h2 : s ≤ 32767) :
    normSq s ≤ ((32768 : ℚ) / 32767) ^ 2 := by
  have hq1 : -(32768 : ℚ) ≤ (s : ℚ) := by exact_mod_cast h1
  have hq2 : (s : ℚ) ≤ 32768 := by
    have h : (s : ℚ) ≤ 32767 := by exact_mod_cast h2
    linarith
  have h3 : (s : ℚ) ^ 2 ≤ (32768 : ℚ) ^ 2 := sq_le_sq' hq1 hq2
  have hnorm : normSq s = (s : ℚ) ^ 2 / (32767 : ℚ) ^ 2 := by
    unfold normSq
    ring
  rw [hnorm, div_pow]
  gcongr

theorem sumSquares_le (xs : List Int)
    (h : ∀ s ∈ xs, -32768 ≤ s ∧ s ≤ 32767) :
    sumSquares xs ≤ (xs.length : ℚ) * ((32768 : ℚ) / 32767) ^ 2 := by
  induction xs with
  | nil => simp [sumSquares]
  | cons a t ih =>
    have ha := h a (List.mem_cons_self a t)
    have ht : ∀ s ∈ t, -32768 ≤ s ∧ s ≤ 32767 :=
      fun s hs => h s (List.mem_cons_of_mem a hs)
    have h1 := normSq_le a ha.1 ha.2
    have h2 := ih ht
    have hexp : (((a :: t).length : ℚ)) * ((32768 : ℚ) / 32767) ^ 2
        = ((32768 : ℚ) / 32767) ^ 2
          + (t.length : ℚ) * ((32768 : ℚ) / 32767) ^ 2 := by
      push_cast [List.length_cons]
      ring
    rw [sumSquares_cons, hexp]
    exact add_le_add h1 h2

/-! ## Claim theorems -/

/-- C1, counterexample: when the environment rejects the transition to
Null, a terminal error message makes `main_loop` return the teardown
`StateChangeError` (the `?` on line 147 propagates it); the structured
failure carrying the event's source path, message and debug detail is never
built, so the claim that the original error takes precedence over a
teardown failure is false on the code. -/
theorem main_loop_error_teardown_cex :
    (main_loop ⟨fun s => match s with | .null => false | _ => true⟩
        ⟨.null, some sinkCaps, []⟩
        [.error (some "src-element") "stream failed" (some "dbg")]).result
      = .err .stateChange
    ∧ (main_loop ⟨fun s => match s with | .null => false | _ => true⟩
        ⟨.null, some sinkCaps, []⟩
        [.error (some "src-element") "stream failed" (some "dbg")]).result
      ≠ .err (.errorMessage "src-element" "stream failed" (some "dbg")) := by
  decide

/-- C1, amended: on a terminal Error event `main_loop` requests a forced
transition to Null; if that teardown succeeds it returns the structured
failure carrying the event's source path ("None" when the source is
absent), message and debug detail, and the graph is left in Null; if the
teardown fails, the teardown `StateChangeError` is returned instead and the
original error's data is lost. -/
theorem main_loop_error_event (env : Env) (p : Pipeline)
    (src : Option String) (e : String) (d : Option String)
    (rest : List Message)
    (hplay : env.setStateOk .playing = true) :
    (env.setStateOk .null = true →
      (main_loop env p (.error src e d :: rest)).result
          = .err (.errorMessage (src.getD "None") e d)
        ∧ (main_loop env p (.error src e d :: rest)).pipeline.state = .null)
    ∧ (env.setStateOk .null = false →
      (main_loop env p (.error src e d :: rest)).result
        = .err .stateChange) := by
  constructor
  · intro hnull
    constructor <;> simp [main_loop, bus_loop, set_state, hplay, hnull]
  · intro hnull
    simp [main_loop, bus_loop, set_state, hplay, hnull]

/-- Concrete instance of `main_loop_error_event`. -/
theorem main_loop_error_event_witness :
    (main_loop ⟨fun _ => true⟩ ⟨.null, none, []⟩
        [.error (some "p") "m" none]).result
      = .err (.errorMessage "p" "m" none) :=
  ((main_loop_error_event ⟨fun _ => true⟩ ⟨.null, none, []⟩
    (some "p") "m" none [] rfl).1 rfl).1

/-- C4: an EndOfStream message breaks the loop; the graph is then forced to
Null: if that teardown succeeds `main_loop` returns success with the graph
in Null, and if it fails the teardown failure is surfaced as the overall
failure; any other message kind is ignored and the loop continues. -/
theorem main_loop_eos_and_other (env : Env) (p : Pipeline)
    (rest msgs : List Message)
    (hplay : env.setStateOk .playing = true) :
    ((env.setStateOk .null = true →
      (main_loop env p (.eos :: rest)).result = .ok
        ∧ (main_loop env p (.eos :: rest)).pipeline.state = .null)
    ∧ (env.setStateOk .null = false →
      (main_loop env p (.eos :: rest)).result = .err .stateChange))
    ∧ main_loop env p (.other :: msgs) = main_loop env p msgs := by
  refine ⟨⟨?_, ?_⟩, ?_⟩
  · intro hnull
    constructor <;>
      simp [main_loop, bus_loop, after_loop, set_state, hplay, hnull]
  · intro hnull
    simp [main_loop, bus_loop, after_loop, set_state, hplay, hnull]
  · simp [main_loop, set_state, hplay, bus_loop]

/-- Concrete instance of `main_loop_eos_and_other`. -/
theorem main_loop_eos_and_other_witness :
    (main_loop ⟨fun _ => true⟩ ⟨.null, none, []⟩ [.eos]).result = .ok
    ∧ main_loop ⟨fun _ => true⟩ ⟨.null, none, []⟩ [.other]
        = main_loop ⟨fun _ => true⟩ ⟨.null, none, []⟩ [] := by
  have h := main_loop_eos_and_other ⟨fun _ => true⟩ ⟨.null, none, []⟩ [] [] rfl
  exact ⟨(h.1.1 rfl).1, h.2⟩

/-- C5: when the factory cannot make "audiotestsrc" (resp. makes it but not
"appsink"), `run` fails with `MissingElement` naming the missing stage, and
the trace of `set_state` requests performed on the graph is empty (no
lifecycle transition is performed). -/
theorem run_missing_element (f : Factory) (addOk linkOk : Bool) (env : Env)
    (msgs : List Message) :
    (f.make "audiotestsrc" = false →
      run f addOk linkOk env msgs
        = (.err (.missingElement "audiotestsrc"), []))
    ∧ (f.make "audiotestsrc" = true → f.make "appsink" = false →
      run f addOk linkOk env msgs
        = (.err (.missingElement "appsink"), [])) := by
  constructor
  · intro h
    simp [run, create_pipeline, h]
  · intro h1 h2
    simp [run, create_pipeline, h1, h2]

/-- Concrete instance of `run_missing_element`. -/
theorem run_missing_element_witness :
    run ⟨fun _ => false⟩ true true ⟨fun _ => true⟩ []
        = (.err (.missingElement "audiotestsrc"), [])
    ∧ run ⟨fun n => n == "audiotestsrc"⟩ true true ⟨fun _ => true⟩ []
        = (.err (.missingElement "appsink"), []) := by
  refine ⟨(run_missing_element ⟨fun _ => false⟩ true true
      ⟨fun _ => true⟩ []).1 rfl,
    (run_missing_element ⟨fun n => n == "audiotestsrc"⟩ true true
      ⟨fun _ => true⟩ []).2 ?_ ?_⟩ <;> decide

/-- C6: the caps fixed on the sink during construction have S16 encoding,
interleaved layout, exactly 1 channel and rate range [1, 2^31 - 1]; hence
the invariant channels ≥ 1, rateMin ≥ 1, rateMax ≥ rateMin holds, and every
successfully built pipeline carries exactly these caps. -/
theorem sinkCaps_invariant :
    (sinkCaps.format = .s16 ∧ sinkCaps.layout = .interleaved
      ∧ sinkCaps.channels = 1 ∧ 1 ≤ sinkCaps.rateMin
      ∧ sinkCaps.rateMin ≤ sinkCaps.rateMax
      ∧ 1 ≤ sinkCaps.channels)
    ∧ ∀ (f : Factory) (a l : Bool) (p : Pipeline),
        create_pipeline f a l = .ok p → p.caps = some sinkCaps := by
  constructor
  · refine ⟨rfl, rfl, rfl, ?_, ?_, ?_⟩ <;> norm_num [sinkCaps]
  · intro f a l p h
    unfold create_pipeline at h
    repeat' split at h
    all_goals simp_all
    rw [← h]

/-- Concrete instance of `sinkCaps_invariant`. -/
theorem sinkCaps_invariant_witness :
    ({ state := .null, caps := some sinkCaps, requests := [] }
        : Pipeline).caps = some sinkCaps :=
  sinkCaps_invariant.2 ⟨fun _ => true⟩ true true
    ⟨.null, some sinkCaps, []⟩ rfl

/-- C3: flow outcomes of the `new_sample` callback: a failed pull yields
Eos with no resource error posted; a missing buffer, a failed readable
mapping, or a failed reinterpretation as S16 each post a resource error and
yield Error; when all four steps succeed it yields Ok. -/
theorem new_sample_flow (pulled : Option GstSample) :
    (pulled = none →
      new_sample pulled = ⟨.eos, false, none⟩)
    ∧ (∀ s, pulled = some s → s.buffer = none →
      new_sample pulled = ⟨.err, true, none⟩)
    ∧ (∀ s b, pulled = some s → s.buffer = some b → b.mapOk = false →
      new_sample pulled = ⟨.err, true, none⟩)
    ∧ (∀ s b, pulled = some s → s.buffer = some b → b.mapOk = true →
        as_slice_of_i16 b.bytes = none →
      new_sample pulled = ⟨.err, true, none⟩)
    ∧ (∀ s b xs, pulled = some s → s.buffer = some b → b.mapOk = true →
        as_slice_of_i16 b.bytes = some xs →
      new_sample pulled = ⟨.ok, false, some xs⟩) := by
  refine ⟨?_, ?_, ?_, ?_, ?_⟩ <;> intros <;> subst_vars <;>
    simp_all [new_sample]

/-- Concrete instances of `new_sample_flow`. -/
theorem new_sample_flow_witness :
    new_sample none = ⟨.eos, false, none⟩
    ∧ new_sample (some ⟨none⟩) = ⟨.err, true, none⟩
    ∧ new_sample (some ⟨some ⟨true, [1, 0]⟩⟩) = ⟨.ok, false, some [1]⟩ :=
  ⟨(new_sample_flow none).1 rfl,
   (new_sample_flow (some ⟨none⟩)).2.1 ⟨none⟩ rfl rfl,
   (new_sample_flow (some ⟨some ⟨true, [1, 0]⟩⟩)).2.2.2.2
     ⟨some ⟨true, [1, 0]⟩⟩ ⟨true, [1, 0]⟩ [1] rfl rfl rfl (by decide)⟩

/-- C2: for every non-empty sample sequence the reducer returns
`sqrt((Σ (s/32767)^2) / length)`; the rounding of the individual IEEE-754
double operations is abstracted to exact arithmetic. -/
theorem rms_eq_rmsSpec (samples : List Int) (h : samples ≠ []) :
    rms samples = some (rmsSpec samples) := by
  have hlen0 : samples.length ≠ 0 := fun hn => h (List.length_eq_zero.mp hn)
  have hlenq : ((samples.length : ℚ)) ≠ 0 := Nat.cast_ne_zero.mpr hlen0
  unfold rms meanSquare fdiv
  rw [if_neg hlenq]
  simp only [Option.map_some']
  congr 1
  unfold rmsSpec
  congr 1
  rw [Rat.cast_div, sumSquares_cast]
  norm_cast

/-- Concrete instance of `rms_eq_rmsSpec`. -/
theorem rms_eq_rmsSpec_witness :
    rms [32767] = some (rmsSpec [32767]) :=
  rms_eq_rmsSpec [32767] (List.cons_ne_nil _ _)

/-- C9: the RMS of a one-element sequence [x] of 16-bit samples equals the
absolute value of the normalized element, |x| / 32767. -/
theorem rms_singleton (x : Int) (_h1 : -32768 ≤ x) (_h2 : x ≤ 32767) :
    rms [x] = some (|(x : ℝ)| / 32767) := by
  unfold rms meanSquare fdiv
  have hlen : (([x] : List Int).length : ℚ) = 1 := by simp
  rw [hlen, if_neg one_ne_zero]
  simp only [Option.map_some']
  congr 1
  have hss : sumSquares [x] = normSq x := by simp [sumSquares]
  rw [hss, div_one,
    show ((normSq x : ℚ) : ℝ) = ((x : ℝ) / 32767) ^ 2 from normSq_cast x,
    Real.sqrt_sq_eq_abs, abs_div]
  norm_num

/-- Concrete instance of `rms_singleton`. -/
theorem rms_singleton_witness :
    rms [-3] = some (|((-3 : Int) : ℝ)| / 32767) :=
  rms_singleton (-3) (by norm_num) (by norm_num)

/-- C7: for non-empty sequences of 16-bit samples the RMS is defined and
lies between 0 and 1 + 1/32767; the bound covers the sample -32768, whose
normalized magnitude is 32768/32767 > 1. -/
theorem rms_bounds (samples : List Int) (hne : samples ≠ [])
    (hrange : ∀ s ∈ samples, -32768 ≤ s ∧ s ≤ 32767) :
    ∃ r : ℝ, rms samples = some r ∧ 0 ≤ r ∧ r ≤ 1 + 1 / 32767 := by
  have hlen0 : samples.length ≠ 0 := fun hn => hne (List.length_eq_zero.mp hn)
  have hlenq : ((samples.length : ℚ)) ≠ 0 := Nat.cast_ne_zero.mpr hlen0
  have hlenpos : (0 : ℚ) < (samples.length : ℚ) := by
    have h := Nat.pos_of_ne_zero hlen0
    exact_mod_cast h
  have hrms : rms samples
      = some (Real.sqrt (((sumSquares samples / (samples.length : ℚ) : ℚ)
        : ℝ))) := by
    unfold rms meanSquare fdiv
    rw [if_neg hlenq]
    rfl
  refine ⟨_, hrms, Real.sqrt_nonneg _, ?_⟩
  have hq_le : sumSquares samples / (samples.length : ℚ)
      ≤ ((32768 : ℚ) / 32767) ^ 2 := by
    rw [div_le_iff₀ hlenpos]
    calc sumSquares samples
        ≤ (samples.length : ℚ) * ((32768 : ℚ) / 32767) ^ 2 :=
          sumSquares_le samples hrange
      _ = ((32768 : ℚ) / 32767) ^ 2 * (samples.length : ℚ) := by ring
  have hcast : ((sumSquares samples / (samples.length : ℚ) : ℚ) : ℝ)
      ≤ ((32768 : ℝ) / 32767) ^ 2 := by
    have h2 : (((((32768 : ℚ) / 32767) ^ 2 : ℚ)) : ℝ)
        = ((32768 : ℝ) / 32767) ^ 2 := by
      push_cast
      ring
    rw [← h2]
    exact Rat.cast_le.mpr hq_le
  have hsqrt : Real.sqrt (((sumSquares samples / (samples.length : ℚ) : ℚ)
      : ℝ)) ≤ (32768 : ℝ) / 32767 := by
    have h1 := Real.sqrt_le_sqrt hcast
    rwa [Real.sqrt_sq (by norm_num : (0 : ℝ) ≤ (32768 : ℝ) / 32767)] at h1
  have hB : (32768 : ℝ) / 32767 = 1 + 1 / 32767 := by norm_num
  linarith

/-- Concrete instance of `rms_bounds`. -/
theorem rms_bounds_witness :
    ∃ r : ℝ, rms [-32768] = some r ∧ 0 ≤ r ∧ r ≤ 1 + 1 / 32767 :=
  rms_bounds [-32768] (List.cons_ne_nil _ _) (by decide)

/-- C8: the RMS of a non-empty 16-bit sample sequence whose element-wise
negation is representable is unchanged by negating every sample. -/
theorem rms_neg_invariant (samples : List Int) (_hne : samples ≠ [])
    (_hrep : ∀ s ∈ samples, -32767 ≤ s ∧ s ≤ 32767) :
    rms (samples.map (fun s => -s)) = rms samples := by
  unfold rms meanSquare
  rw [sumSquares_map_neg, List.length_map]

/-- Concrete instance of `rms_neg_invariant`. -/
theorem rms_neg_invariant_witness :
    rms ([5, -7].map (fun s => -s)) = rms [5, -7] :=
  rms_neg_invariant [5, -7] (List.cons_ne_nil _ _) (by decide)

/-- C10: on the empty sample sequence the computation sums to 0.0, divides
by the length 0.0 — the IEEE-754 division 0.0 / 0.0 — and the emitted value
is NaN (modelled as `none`), rather than 0.0 or a failure. -/
theorem rms_empty_nan :
    sumSquares [] = 0 ∧ ([] : List Int).length = 0
      ∧ meanSquare [] = none ∧ rms [] = none := by
  refine ⟨rfl, rfl, ?_, ?_⟩ <;> simp [rms, meanSquare, fdiv, sumSquares]

end AndroidSink
